import Mathlib

/-!
Verification development for the stm32f30x-hal repository (files
`src/rcc.rs` and `src/gpio.rs`).

The RCC part shallowly embeds `CFGR::freeze` (src/rcc.rs lines 146-267):
machine integers (`u32`) are modelled as `Nat` (all frequencies handled by
the claims are far below `2^31`, so no overflow wrapping arises in the
modelled domain), the `assert!` macros and the `unreachable!()` arms are
modelled as `Except` errors (a panic aborts the routine; in the source all
asserts and the prescaler-ratio matches happen before the first hardware
write, so an aborted run performs no writes), and the sequence of hardware
register writes performed by a successful run is recorded as a list of
events in source order.  A division by zero in Rust (a requested derived
clock of 0 Hz) also panics; in the `Nat` model `x / 0 = 0` folds that
panic into the ratio-zero abort path, which is likewise a panic.
-/

namespace Stm32Rcc

/-- Internal high-speed oscillator frequency in Hz (src/rcc.rs line 97). -/
def HSI : Nat := 8000000

/-- The clock configuration builder: four optional target frequencies
(src/rcc.rs lines 100-105). -/
structure CFGR where
  hclk : Option Nat
  pclk1 : Option Nat
  pclk2 : Option Nat
  sysclk : Option Nat
deriving DecidableEq

/-- The three derived buses, used to tag which prescaler-ratio match hit
its `unreachable!()` arm. -/
inductive Bus where
  | ahb
  | apb1
  | apb2
deriving DecidableEq

/-- Abort causes of `freeze`: the four `assert!` limit checks
(src/rcc.rs lines 156, 175, 191, 207) and the `unreachable!()` arms for a
zero parent/target ratio (lines 160, 179, 195). -/
inductive RccError where
  | sysclkLimit
  | hclkLimit
  | pclk1Limit
  | pclk2Limit
  | ratioZero (b : Bus)
deriving DecidableEq

/-- Hardware register writes performed by `freeze`, in program order:
the flash ACR latency write (line 211), the PLL multiplier write
(line 226), setting the PLL-enable bit (line 228), the busy-poll of the
PLL-ready bit (line 230), and the single CFGR write that programs the
three prescaler fields and the system-clock-source selector SW
(lines 233 and 247). -/
inductive Event where
  | flashLatency (bits : Nat)
  | pllmulWrite (bits : Nat)
  | pllOn
  | pllWaitReady
  | cfgrSwitch (ppre2Bits ppre1Bits hpreBits sw : Nat)
deriving DecidableEq

/-- The `Clocks` descriptor returned by `freeze` (src/rcc.rs lines 270-280). -/
structure Clocks where
  hclk : Nat
  pclk1 : Nat
  pclk2 : Nat
  ppre1 : Nat
  ppre2 : Nat
  sysclk : Nat
deriving DecidableEq

/-- Result of a successful `freeze`: the `Clocks` descriptor plus the
recorded hardware writes. -/
structure FreezeResult where
  clocks : Clocks
  events : List Event
deriving DecidableEq

/-- PLL multiplier (src/rcc.rs lines 146-147): floor division by `HSI`,
then clamped into `[2, 16]` by `min`/`max` exactly as the source. -/
def pllmulOf (c : CFGR) : Nat :=
  min (max (2 * c.sysclk.getD HSI / HSI) 2) 16

/-- PLL multiplier field bits (src/rcc.rs lines 148-152): `none` means
PLL bypass. -/
def pllmulBitsOf (c : CFGR) : Option Nat :=
  if pllmulOf c = 2 then none else some (pllmulOf c - 2)

/-- Achieved system clock (src/rcc.rs line 154). -/
def sysclkOf (c : CFGR) : Nat :=
  pllmulOf c * HSI / 2

/-- AHB prescaler bits from the sysclk/target ratio (the match at
src/rcc.rs lines 159-170); `none` models the `unreachable!()` arm at
ratio 0.  The Rust `a...b` patterns are inclusive ranges. -/
def hpreBitsFor (r : Nat) : Option Nat :=
  if r = 0 then none
  else if r = 1 then some 0b0111
  else if r = 2 then some 0b1000
  else if r ≤ 5 then some 0b1001
  else if r ≤ 11 then some 0b1010
  else if r ≤ 39 then some 0b1011
  else if r ≤ 95 then some 0b1100
  else if r ≤ 191 then some 0b1101
  else if r ≤ 383 then some 0b1110
  else some 0b1111

/-- APB prescaler bits from the hclk/target ratio (the identical matches
at src/rcc.rs lines 178-185 and 194-201); `none` models `unreachable!()`
at ratio 0. -/
def ppreBitsFor (r : Nat) : Option Nat :=
  if r = 0 then none
  else if r = 1 then some 0b011
  else if r = 2 then some 0b100
  else if r ≤ 5 then some 0b101
  else if r ≤ 11 then some 0b110
  else some 0b111

/-- AHB prescaler selection stage (src/rcc.rs lines 158-171): defaults to
bits `0b0111` (divider 1) when no AHB target was given. -/
def hpreBitsExc (target : Option Nat) (sysclk : Nat) : Except RccError Nat :=
  match target with
  | none => .ok 0b0111
  | some h =>
    match hpreBitsFor (sysclk / h) with
    | none => .error (RccError.ratioZero Bus.ahb)
    | some b => .ok b

/-- APB prescaler selection stage (src/rcc.rs lines 177-186 and 193-202):
defaults to bits `0b011` (divider 1) when no target was given. -/
def ppreBitsExc (target : Option Nat) (hclk : Nat) (bus : Bus) : Except RccError Nat :=
  match target with
  | none => .ok 0b011
  | some p =>
    match ppreBitsFor (hclk / p) with
    | none => .error (RccError.ratioZero bus)
    | some b => .ok b

/-- Shallow embedding of `CFGR::freeze` (src/rcc.rs lines 145-267),
following the source statement order: PLL multiplier and achieved sysclk;
sysclk limit assert; AHB prescaler and hclk with its limit assert; APB1
prescaler and pclk1 with its 36 MHz assert; APB2 prescaler and pclk2 with
its limit assert; then (only when all checks passed) the hardware writes:
flash latency, and either the PLL programming sequence followed by the
prescaler/source-switch write, or the direct HSI prescaler/source write. -/
def freeze (c : CFGR) : Except RccError FreezeResult :=
  let sysclk := sysclkOf c
  if sysclk ≤ 72000000 then
    match hpreBitsExc c.hclk sysclk with
    | .error e => .error e
    | .ok hpreBits =>
      let hclk := sysclk / 2 ^ (hpreBits - 0b0111)
      if hclk ≤ 72000000 then
        match ppreBitsExc c.pclk1 hclk Bus.apb1 with
        | .error e => .error e
        | .ok ppre1Bits =>
          let ppre1 := 2 ^ (ppre1Bits - 0b011)
          let pclk1 := hclk / ppre1
          if pclk1 ≤ 36000000 then
            match ppreBitsExc c.pclk2 hclk Bus.apb2 with
            | .error e => .error e
            | .ok ppre2Bits =>
              let ppre2 := 2 ^ (ppre2Bits - 0b011)
              let pclk2 := hclk / ppre2
              if pclk2 ≤ 72000000 then
                let latency :=
                  if sysclk ≤ 24000000 then 0b000
                  else if sysclk ≤ 48000000 then 0b001
                  else 0b010
                let commit :=
                  match pllmulBitsOf c with
                  | some b =>
                    [Event.pllmulWrite b, Event.pllOn, Event.pllWaitReady,
                     Event.cfgrSwitch ppre2Bits ppre1Bits hpreBits 0b10]
                  | none =>
                    [Event.cfgrSwitch ppre2Bits ppre1Bits hpreBits 0b00]
                .ok { clocks :=
                        { hclk := hclk, pclk1 := pclk1, pclk2 := pclk2,
                          ppre1 := ppre1, ppre2 := ppre2, sysclk := sysclk },
                      events := Event.flashLatency latency :: commit }
              else .error RccError.pclk2Limit
          else .error RccError.pclk1Limit
      else .error RccError.hclkLimit
  else .error RccError.sysclkLimit

/-- Hardware writes performed by a call to `freeze`: the event list on
success, and nothing on an abort (in the source, every assert and every
ratio match precedes the first hardware write). -/
def writesOf (c : CFGR) : List Event :=
  match freeze c with
  | .ok r => r.events
  | .error _ => []

/-- Achieved AHB clock as computed by the AHB stage of `freeze`
(src/rcc.rs line 173), exposed for stating claims about later stages. -/
def hclkExc (c : CFGR) : Except RccError Nat :=
  match hpreBitsExc c.hclk (sysclkOf c) with
  | .error e => .error e
  | .ok b => .ok (sysclkOf c / 2 ^ (b - 0b0111))

/-- Achieved APB1 clock as computed by the APB1 stage of `freeze`
(src/rcc.rs lines 188-189), exposed for stating claims. -/
def pclk1Exc (c : CFGR) : Except RccError Nat :=
  match hclkExc c with
  | .error e => .error e
  | .ok hc =>
    match ppreBitsExc c.pclk1 hc Bus.apb1 with
    | .error e => .error e
    | .ok b => .ok (hc / 2 ^ (b - 0b011))

/-- The claim side of C1, modelled from the spec words: the PLL
multiplier as `round_up(2 * t / osc_freq)` (ceiling division), clamped
into `[2, 16]`.  Used only to contrast with the source's `pllmulOf`. -/
def specPllmulCeil (t : Nat) : Nat :=
  min (max ((2 * t + HSI - 1) / HSI) 2) 16

/-- The claim side of C2, modelled from the spec words: the smallest
divider in the ladder {1,2,4,8,16,64,128,256,512} whose quotient does not
exceed the target.  Used only to contrast with the source's selection. -/
def specSmallestAhbDivider (sysclk target : Nat) : Option Nat :=
  [1, 2, 4, 8, 16, 64, 128, 256, 512].find? (fun d => sysclk / d ≤ target)

end Stm32Rcc

namespace Stm32Gpio

/-!
Shallow embedding of the GPIO pin-mode transition functions generated by
the `gpio!` macro (src/gpio.rs lines 90-491).  The macro stamps out, for
each pin `$PXi` with constant index `$i`, the same read-modify-write code
on the shared 32-bit registers; the embedding takes the pin index as an
explicit `Nat` parameter and a register value as a `Nat` below `2^32`.
Rust's `!mask` on `u32` is the 32-bit complement, modelled as
`(2^32 - 1) ^^^ mask`.
-/

/-- 32-bit bitwise complement of a mask (`!mask` on a `u32`). -/
def compl32 (m : Nat) : Nat := (2 ^ 32 - 1) ^^^ m

/-- The 2-bit field of pin `i` in a mode/pull register: bits
`[2*i+1 : 2*i]`. -/
def fld2 (r i : Nat) : Nat := (r >>> (2 * i)) &&& 3

/-- The 4-bit alternate-function nibble at position `n` of an AFR
register: bits `[4*n+3 : 4*n]`. -/
def fld4 (r n : Nat) : Nat := (r >>> (4 * n)) &&& 15

/-- `as_push_pull_output` for pin index `i` (src/gpio.rs lines 416-435):
read-modify-write of `(moder, otyper)`; writes mode `0b01` into the pin's
2-bit mode field and clears the pin's output-type bit. -/
def as_push_pull_output (i moder otyper : Nat) : Nat × Nat :=
  let offset := 2 * i
  let mode := 0b01
  let moder := (moder &&& compl32 (0b11 <<< offset)) ||| (mode <<< offset)
  let otyper := otyper &&& compl32 (0b1 <<< i)
  (moder, otyper)

/-- `as_floating_input` for pin index `i` (src/gpio.rs lines 331-349):
read-modify-write of `(moder, pupdr)`; clears the pin's 2-bit mode field
(input mode `0b00`) and its 2-bit pull field. -/
def as_floating_input (i moder pupdr : Nat) : Nat × Nat :=
  let offset := 2 * i
  let moder := moder &&& compl32 (0b11 <<< offset)
  let pupdr := pupdr &&& compl32 (0b11 <<< offset)
  (moder, pupdr)

/-- `as_af7` for pin index `i` (src/gpio.rs lines 307-328):
read-modify-write of `(moder, afr)`; writes alternate-function mode
`0b10` into the pin's 2-bit mode field and the value 7 into the pin's
4-bit nibble at offset `4 * (i % 8)` of the selected AFR register. -/
def as_af7 (i moder afr : Nat) : Nat × Nat :=
  let offset := 2 * i
  let mode := 0b10
  let moder := (moder &&& compl32 (0b11 <<< offset)) ||| (mode <<< offset)
  let af := 7
  let offset2 := 4 * (i % 8)
  let afr := (afr &&& compl32 (0b1111 <<< offset2)) ||| (af <<< offset2)
  (moder, afr)

/-- The partially erased pin `$PXx` (src/gpio.rs lines 203-207): the pin
index is stored at runtime. -/
structure PXx where
  i : Nat

namespace PXx

/-- `is_low` for the erased pin (src/gpio.rs lines 214-217): read of the
output-data register masked with the stored index's bit. -/
def is_low (p : PXx) (odr : Nat) : Bool := odr &&& (1 <<< p.i) == 0

/-- `is_high` for the erased pin (src/gpio.rs lines 210-212). -/
def is_high (p : PXx) (odr : Nat) : Bool := !(p.is_low odr)

/-- `set_high` for the erased pin (src/gpio.rs lines 219-222): the value
written to the set/reset register. -/
def set_high (p : PXx) : Nat := 1 <<< p.i

/-- `set_low` for the erased pin (src/gpio.rs lines 224-227): the value
written to the set/reset register. -/
def set_low (p : PXx) : Nat := 1 <<< (16 + p.i)

end PXx

namespace PXi

/-- `is_low` for the typed pin `$PXi` (src/gpio.rs lines 473-476), with
the macro's compile-time index `$i` as a parameter. -/
def is_low (i odr : Nat) : Bool := odr &&& (1 <<< i) == 0

/-- `is_high` for the typed pin (src/gpio.rs lines 469-471). -/
def is_high (i odr : Nat) : Bool := !(is_low i odr)

/-- `set_high` for the typed pin (src/gpio.rs lines 478-481). -/
def set_high (i : Nat) : Nat := 1 <<< i

/-- `set_low` for the typed pin (src/gpio.rs lines 483-486). -/
def set_low (i : Nat) : Nat := 1 <<< (16 + i)

/-- `downgrade` (src/gpio.rs lines 460-465): erases the compile-time pin
index into the runtime field of the partially erased pin. -/
def downgrade (i : Nat) : PXx := { i := i }

end PXi

end Stm32Gpio

namespace Stm32Rcc

/-- The clamp to at most 16 bounds the PLL multiplier. -/
theorem pllmulOf_le (c : CFGR) : pllmulOf c ≤ 16 :=
  min_le_right _ _

/-- The clamp to at least 2 bounds the PLL multiplier from below. -/
theorem two_le_pllmulOf (c : CFGR) : 2 ≤ pllmulOf c :=
  le_min (le_max_right _ _) (by norm_num)

/-- The achieved system clock is bounded by 16 multiplier steps of 4 MHz. -/
theorem sysclkOf_le (c : CFGR) : sysclkOf c ≤ 64000000 := by
  unfold sysclkOf HSI
  have h := pllmulOf_le c
  calc pllmulOf c * 8000000 / 2 ≤ 16 * 8000000 / 2 :=
        Nat.div_le_div_right (Nat.mul_le_mul_right _ h)
    _ = 64000000 := by norm_num

/-- The AHB stage can only abort with the AHB ratio-zero error. -/
theorem hpreBitsExc_error {t : Option Nat} {s : Nat} {e : RccError}
    (h : hpreBitsExc t s = .error e) : e = RccError.ratioZero Bus.ahb := by
  unfold hpreBitsExc at h
  split at h
  · exact Except.noConfusion h
  · split at h
    · injection h with h2
      exact h2.symm
    · exact Except.noConfusion h

/-- An APB stage can only abort with its own ratio-zero error. -/
theorem ppreBitsExc_error {t : Option Nat} {hc : Nat} {bus : Bus} {e : RccError}
    (h : ppreBitsExc t hc bus = .error e) : e = RccError.ratioZero bus := by
  unfold ppreBitsExc at h
  split at h
  · exact Except.noConfusion h
  · split at h
    · injection h with h2
      exact h2.symm
    · exact Except.noConfusion h

/-- A successful AHB stage with no target selects divider-1 bits. -/
theorem hpreBitsExc_ok_none {s b : Nat} (h : hpreBitsExc none s = .ok b) : b = 7 := by
  unfold hpreBitsExc at h
  injection h with h2
  exact h2.symm

/-- A successful AHB stage with a target comes from the ratio table. -/
theorem hpreBitsExc_ok_some {hk s b : Nat} (h : hpreBitsExc (some hk) s = .ok b) :
    hpreBitsFor (s / hk) = some b := by
  simp only [hpreBitsExc] at h
  split at h
  · exact Except.noConfusion h
  · rename_i b2 heq
    injection h with h2
    rw [heq, h2]

/-- The AHB ratio table only produces bit patterns between 7 and 15. -/
theorem hpreBitsFor_bounds {r b : Nat} (h : hpreBitsFor r = some b) :
    7 ≤ b ∧ b ≤ 15 := by
  unfold hpreBitsFor at h
  split_ifs at h <;>
    first
      | exact Option.noConfusion h
      | (injection h with h2; omega)

/-- The APB ratio table only produces bit patterns between 3 and 7. -/
theorem ppreBitsFor_bounds {r b : Nat} (h : ppreBitsFor r = some b) :
    3 ≤ b ∧ b ≤ 7 := by
  unfold ppreBitsFor at h
  split_ifs at h <;>
    first
      | exact Option.noConfusion h
      | (injection h with h2; omega)

/-- A successful `hclkExc` exposes the AHB bits and the divider formula. -/
theorem hclkExc_ok {c : CFGR} {hc : Nat} (h : hclkExc c = .ok hc) :
    ∃ b, hpreBitsExc c.hclk (sysclkOf c) = .ok b ∧ hc = sysclkOf c / 2 ^ (b - 7) := by
  unfold hclkExc at h
  split at h
  · exact Except.noConfusion h
  · rename_i b heq
    injection h with h2
    exact ⟨b, heq, h2.symm⟩

/-- A successful `pclk1Exc` exposes the APB1 bits and the divider formula. -/
theorem pclk1Exc_ok {c : CFGR} {p1 : Nat} (h : pclk1Exc c = .ok p1) :
    ∃ hc b, hclkExc c = .ok hc ∧ ppreBitsExc c.pclk1 hc Bus.apb1 = .ok b ∧
      p1 = hc / 2 ^ (b - 3) := by
  unfold pclk1Exc at h
  split at h
  · exact Except.noConfusion h
  · rename_i hc heq
    split at h
    · exact Except.noConfusion h
    · rename_i b heq2
      injection h with h2
      exact ⟨hc, b, heq, heq2, h2.symm⟩

/-- Anatomy of a successful `freeze` call: the three prescaler stages
succeeded, the returned clocks follow the divider formulas, the APB1
limit check passed, and the recorded writes are the flash-latency write
followed by the commit branch selected by the PLL bypass decision. -/
theorem freeze_ok_shape (c : CFGR) (res : FreezeResult) (h : freeze c = .ok res) :
    ∃ hp p1 p2,
      hpreBitsExc c.hclk (sysclkOf c) = .ok hp ∧
      ppreBitsExc c.pclk1 (sysclkOf c / 2 ^ (hp - 7)) Bus.apb1 = .ok p1 ∧
      ppreBitsExc c.pclk2 (sysclkOf c / 2 ^ (hp - 7)) Bus.apb2 = .ok p2 ∧
      res.clocks =
        { hclk := sysclkOf c / 2 ^ (hp - 7),
          pclk1 := sysclkOf c / 2 ^ (hp - 7) / 2 ^ (p1 - 3),
          pclk2 := sysclkOf c / 2 ^ (hp - 7) / 2 ^ (p2 - 3),
          ppre1 := 2 ^ (p1 - 3), ppre2 := 2 ^ (p2 - 3),
          sysclk := sysclkOf c } ∧
      sysclkOf c / 2 ^ (hp - 7) / 2 ^ (p1 - 3) ≤ 36000000 ∧
      res.events =
        Event.flashLatency
            (if sysclkOf c ≤ 24000000 then 0 else if sysclkOf c ≤ 48000000 then 1 else 2) ::
          (match pllmulBitsOf c with
           | some b => [Event.pllmulWrite b, Event.pllOn, Event.pllWaitReady,
                        Event.cfgrSwitch p2 p1 hp 2]
           | none => [Event.cfgrSwitch p2 p1 hp 0]) := by
  simp only [freeze] at h
  split at h
  · split at h
    · exact Except.noConfusion h
    · rename_i hp hpeq
      split at h
      · split at h
        · exact Except.noConfusion h
        · rename_i p1 p1eq
          split at h
          · split at h
            · exact Except.noConfusion h
            · rename_i p2 p2eq
              split at h
              · rename_i h36 _ h72b
                injection h with h2
                subst h2
                exact ⟨hp, p1, p2, hpeq, p1eq, p2eq, rfl, h36, rfl⟩
              · exact Except.noConfusion h
          · exact Except.noConfusion h
      · exact Except.noConfusion h
  · exact Except.noConfusion h

end Stm32Rcc

namespace Stm32Rcc

/-- Claim C5: because the PLL multiplier is clamped to at most 16, the
achieved system clock computed by `freeze` is at most 64 MHz for every
input configuration; consequently the system-clock, AHB-clock and
APB2-clock 72 MHz limit checks can never fail, and the only limit check
reachable as a failure is the APB1 36 MHz check (every abort is either
the APB1 limit or a ratio-zero programming error); the APB1 failure is
reachable, exhibited at a 48 MHz system-clock request. -/
theorem c5_only_apb1_limit_reachable (c : CFGR) :
    sysclkOf c ≤ 64000000 ∧
    (∀ e, freeze c = .error e →
      e = RccError.pclk1Limit ∨ ∃ b, e = RccError.ratioZero b) ∧
    freeze { hclk := none, pclk1 := none, pclk2 := none, sysclk := some 48000000 } =
      .error RccError.pclk1Limit := by
  refine ⟨sysclkOf_le c, ?_, rfl⟩
  intro e he
  simp only [freeze] at he
  split at he
  · split at he
    · rename_i e2 heq
      injection he with he2
      subst he2
      exact Or.inr ⟨Bus.ahb, hpreBitsExc_error heq⟩
    · split at he
      · split at he
        · rename_i e2 heq
          injection he with he2
          subst he2
          exact Or.inr ⟨Bus.apb1, ppreBitsExc_error heq⟩
        · split at he
          · split at he
            · rename_i e2 heq
              injection he with he2
              subst he2
              exact Or.inr ⟨Bus.apb2, ppreBitsExc_error heq⟩
            · split at he
              · exact Except.noConfusion he
              · rename_i hlt
                exact absurd
                  (le_trans (Nat.div_le_self _ _)
                    (le_trans (Nat.div_le_self _ _)
                      (le_trans (sysclkOf_le c) (by norm_num)))) hlt
          · injection he with he2
            exact Or.inl he2.symm
      · rename_i hlt
        exact absurd
          (le_trans (Nat.div_le_self _ _)
            (le_trans (sysclkOf_le c) (by norm_num))) hlt
  · rename_i hlt
    exact absurd (le_trans (sysclkOf_le c) (by norm_num)) hlt

/-- Witness for C5 at the concrete reachable failure: the 48 MHz request
aborts at the APB1 limit and that abort is classified as allowed. -/
theorem c5_only_apb1_limit_reachable_witness :
    sysclkOf { hclk := none, pclk1 := none, pclk2 := none, sysclk := some 48000000 } ≤
      64000000 ∧
    (RccError.pclk1Limit = RccError.pclk1Limit ∨
      ∃ b, RccError.pclk1Limit = RccError.ratioZero b) :=
  ⟨(c5_only_apb1_limit_reachable
      { hclk := none, pclk1 := none, pclk2 := none, sysclk := some 48000000 }).1,
   (c5_only_apb1_limit_reachable
      { hclk := none, pclk1 := none, pclk2 := none, sysclk := some 48000000 }).2.1
     RccError.pclk1Limit
     (c5_only_apb1_limit_reachable
        { hclk := none, pclk1 := none, pclk2 := none, sysclk := some 48000000 }).2.2⟩

/-- Claim C6: with no targets set, `freeze` yields sysclk = 8 MHz and
AHB/APB1/APB2 clocks all 8 MHz (dividers 1), writes 0 flash wait states,
leaves the PLL disabled (the complete write list holds no PLL multiplier
write and no PLL-enable write; PLL bypass is selected), and sets the
clock-source selector to the internal oscillator (SW = 0b00). -/
theorem c6_no_targets_defaults :
    freeze { hclk := none, pclk1 := none, pclk2 := none, sysclk := none } =
      .ok { clocks := { hclk := 8000000, pclk1 := 8000000, pclk2 := 8000000,
                        ppre1 := 1, ppre2 := 1, sysclk := 8000000 },
            events := [Event.flashLatency 0, Event.cfgrSwitch 3 3 7 0] } ∧
    writesOf { hclk := none, pclk1 := none, pclk2 := none, sysclk := none } =
      [Event.flashLatency 0, Event.cfgrSwitch 3 3 7 0] ∧
    pllmulBitsOf { hclk := none, pclk1 := none, pclk2 := none, sysclk := none } = none :=
  ⟨rfl, rfl, rfl⟩

/-- Claim C3 counterexample: requesting 48 MHz with no other targets
makes `freeze` abort at the APB1 36 MHz check, and no hardware write at
all is performed — in particular the flash latency write of 1 wait state
asserted by the claim never happens. -/
theorem c3_counterexample_no_flash_write :
    freeze { hclk := none, pclk1 := none, pclk2 := none, sysclk := some 48000000 } =
      .error RccError.pclk1Limit ∧
    writesOf { hclk := none, pclk1 := none, pclk2 := none, sysclk := some 48000000 } = [] ∧
    Event.flashLatency 1 ∉
      writesOf { hclk := none, pclk1 := none, pclk2 := none, sysclk := some 48000000 } := by
  refine ⟨rfl, rfl, by decide⟩

/-- Claim C3 (amended): requesting 48 MHz with no other targets yields
pllmul = 12 and an achieved system clock of exactly 48 MHz, defaults the
AHB and APB1 dividers to 1 (48 MHz each), and fails with the
unrecoverable configuration-impossible error because the defaulted APB1
clock of 48 MHz exceeds its 36 MHz ceiling; the failure happens before
any hardware write, so the 1-wait-state flash latency corresponding to
48 MHz is computed but never written. -/
theorem c3_48mhz_aborts_at_apb1 :
    pllmulOf { hclk := none, pclk1 := none, pclk2 := none, sysclk := some 48000000 } = 12 ∧
    sysclkOf { hclk := none, pclk1 := none, pclk2 := none, sysclk := some 48000000 } =
      48000000 ∧
    hclkExc { hclk := none, pclk1 := none, pclk2 := none, sysclk := some 48000000 } =
      .ok 48000000 ∧
    pclk1Exc { hclk := none, pclk1 := none, pclk2 := none, sysclk := some 48000000 } =
      .ok 48000000 ∧
    (if (48000000 : Nat) ≤ 24000000 then (0 : Nat)
     else if (48000000 : Nat) ≤ 48000000 then 1 else 2) = 1 ∧
    freeze { hclk := none, pclk1 := none, pclk2 := none, sysclk := some 48000000 } =
      .error RccError.pclk1Limit ∧
    writesOf { hclk := none, pclk1 := none, pclk2 := none, sysclk := some 48000000 } = [] := by
  refine ⟨by decide, by decide, rfl, rfl, by decide, rfl, rfl⟩

end Stm32Rcc

namespace Stm32Rcc

/-- Claim C7: if a requested derived clock (AHB, APB1 or APB2) is
strictly higher than its parent clock — so that the integer parent/target
ratio is zero — then `freeze` hits the corresponding `unreachable!()`
programming-error abort (for APB1/APB2 provided the earlier stages got
that far) and never returns a `Clocks` descriptor or a substituted
fallback frequency. -/
theorem c7_ratio_zero_aborts (c : CFGR)
    (h : (∃ hk, c.hclk = some hk ∧ sysclkOf c < hk) ∨
         (∃ hc p, hclkExc c = .ok hc ∧ c.pclk1 = some p ∧ hc < p) ∨
         (∃ hc p1 p, hclkExc c = .ok hc ∧ pclk1Exc c = .ok p1 ∧
            p1 ≤ 36000000 ∧ c.pclk2 = some p ∧ hc < p)) :
    (∃ b, freeze c = .error (RccError.ratioZero b)) ∧
    ∀ res, freeze c ≠ .ok res := by
  have h72 : sysclkOf c ≤ 72000000 := le_trans (sysclkOf_le c) (by norm_num)
  have herr : ∃ b, freeze c = .error (RccError.ratioZero b) := by
    rcases h with ⟨hk, hck, hlt⟩ | ⟨hc, p, hok, hcp, hlt⟩ |
      ⟨hc, p1, p, hok, hok1, h36, hcp, hlt⟩
    · refine ⟨Bus.ahb, ?_⟩
      have hexc : hpreBitsExc c.hclk (sysclkOf c) =
          .error (RccError.ratioZero Bus.ahb) := by
        rw [hck]
        simp [hpreBitsExc, Nat.div_eq_of_lt hlt, hpreBitsFor]
      simp [freeze, h72, hexc]
    · obtain ⟨hpb, hpeq, hceq⟩ := hclkExc_ok hok
      subst hceq
      refine ⟨Bus.apb1, ?_⟩
      have h72h : sysclkOf c / 2 ^ (hpb - 7) ≤ 72000000 :=
        le_trans (Nat.div_le_self _ _) h72
      have hexc1 : ppreBitsExc c.pclk1 (sysclkOf c / 2 ^ (hpb - 7)) Bus.apb1 =
          .error (RccError.ratioZero Bus.apb1) := by
        rw [hcp]
        simp [ppreBitsExc, Nat.div_eq_of_lt hlt, ppreBitsFor]
      simp [freeze, h72, hpeq, h72h, hexc1]
    · obtain ⟨hpb, hpeq, hceq⟩ := hclkExc_ok hok
      subst hceq
      obtain ⟨hc2, p1b, hok2, hp1eq, hp1v⟩ := pclk1Exc_ok hok1
      rw [hok] at hok2
      injection hok2 with hok2
      subst hok2
      subst hp1v
      refine ⟨Bus.apb2, ?_⟩
      have h72h : sysclkOf c / 2 ^ (hpb - 7) ≤ 72000000 :=
        le_trans (Nat.div_le_self _ _) h72
      have hexc2 : ppreBitsExc c.pclk2 (sysclkOf c / 2 ^ (hpb - 7)) Bus.apb2 =
          .error (RccError.ratioZero Bus.apb2) := by
        rw [hcp]
        simp [ppreBitsExc, Nat.div_eq_of_lt hlt, ppreBitsFor]
      simp [freeze, h72, hpeq, h72h, hp1eq, h36, hexc2]
  refine ⟨herr, ?_⟩
  obtain ⟨b, hb⟩ := herr
  intro res hres
  rw [hb] at hres
  exact Except.noConfusion hres

/-- Witness for C7: requesting a 16 MHz AHB clock from the default 8 MHz
system clock has ratio zero and aborts with the ratio-zero error. -/
theorem c7_ratio_zero_aborts_witness :
    ∃ b, freeze { hclk := some 16000000, pclk1 := none, pclk2 := none, sysclk := none } =
      .error (RccError.ratioZero b) :=
  (c7_ratio_zero_aborts
    { hclk := some 16000000, pclk1 := none, pclk2 := none, sysclk := none }
    (Or.inl ⟨16000000, rfl, by decide⟩)).1

end Stm32Rcc

namespace Stm32Rcc

/-- Claim C1 counterexample: at a requested system clock of 10 MHz the
source computes `pllmul = (2 * 10M) / 8M = 2` (floor division, PLL
bypass, achieved 8 MHz), while the claim's round-up formula gives
`ceil(2.5) = 3` (achieved 12 MHz); `freeze` indeed bypasses the PLL and
returns 8 MHz everywhere. -/
theorem c1_counterexample_round_up :
    pllmulOf { hclk := none, pclk1 := none, pclk2 := none, sysclk := some 10000000 } = 2 ∧
    specPllmulCeil 10000000 = 3 ∧
    pllmulOf { hclk := none, pclk1 := none, pclk2 := none, sysclk := some 10000000 } ≠
      specPllmulCeil 10000000 ∧
    freeze { hclk := none, pclk1 := none, pclk2 := none, sysclk := some 10000000 } =
      .ok { clocks := { hclk := 8000000, pclk1 := 8000000, pclk2 := 8000000,
                        ppre1 := 1, ppre2 := 1, sysclk := 8000000 },
            events := [Event.flashLatency 0, Event.cfgrSwitch 3 3 7 0] } := by
  refine ⟨by decide, by decide, by decide, rfl⟩

/-- Claim C1 (amended): when a system clock target `t` was requested, the
PLL multiplier is computed as the floor of `2 * t / 8_000_000` (round
down, not round up), then clamped into `[2, 16]`; the achieved system
clock equals `pllmul * 8_000_000 / 2`; and a multiplier of exactly 2
(including the case where no system clock was requested) selects PLL
bypass: the achieved clock is the 8 MHz internal oscillator and a
successful `freeze` performs no PLL write, switching SW to the internal
oscillator. -/
theorem c1_pllmul_floor_clamp_bypass (c : CFGR) :
    2 ≤ pllmulOf c ∧ pllmulOf c ≤ 16 ∧
    (∀ t, c.sysclk = some t → pllmulOf c = min (max (2 * t / HSI) 2) 16) ∧
    sysclkOf c = pllmulOf c * HSI / 2 ∧
    (c.sysclk = none → pllmulOf c = 2) ∧
    (pllmulOf c = 2 → pllmulBitsOf c = none ∧ sysclkOf c = HSI) ∧
    (∀ res, freeze c = .ok res → pllmulOf c = 2 →
      ∃ p2 p1 hp, res.events = [Event.flashLatency 0, Event.cfgrSwitch p2 p1 hp 0]) := by
  refine ⟨two_le_pllmulOf c, pllmulOf_le c, ?_, rfl, ?_, ?_, ?_⟩
  · intro t ht
    simp [pllmulOf, ht]
  · intro hnone
    simp [pllmulOf, hnone, HSI]
  · intro h2
    exact ⟨by simp [pllmulBitsOf, h2], by simp [sysclkOf, h2, HSI]⟩
  · intro res hres h2
    obtain ⟨hp, p1, p2, _, _, _, _, _, hev⟩ := freeze_ok_shape c res hres
    have hbn : pllmulBitsOf c = none := by simp [pllmulBitsOf, h2]
    have hsys : sysclkOf c = 8000000 := by simp [sysclkOf, h2, HSI]
    refine ⟨p2, p1, hp, ?_⟩
    rw [hev, hbn, hsys]
    norm_num

/-- Witness for C1 at the input of the counterexample: 10 MHz requested,
multiplier floor-computed and equal to the bypass point 2. -/
theorem c1_pllmul_floor_clamp_bypass_witness :
    pllmulOf { hclk := none, pclk1 := none, pclk2 := none, sysclk := some 10000000 } =
      min (max (2 * 10000000 / HSI) 2) 16 ∧
    pllmulBitsOf { hclk := none, pclk1 := none, pclk2 := none, sysclk := some 10000000 } =
      none ∧
    sysclkOf { hclk := none, pclk1 := none, pclk2 := none, sysclk := some 10000000 } = HSI :=
  ⟨(c1_pllmul_floor_clamp_bypass
      { hclk := none, pclk1 := none, pclk2 := none, sysclk := some 10000000 }).2.2.1
     10000000 rfl,
   ((c1_pllmul_floor_clamp_bypass
      { hclk := none, pclk1 := none, pclk2 := none, sysclk := some 10000000 }).2.2.2.2.2.1
     (by decide)).1,
   ((c1_pllmul_floor_clamp_bypass
      { hclk := none, pclk1 := none, pclk2 := none, sysclk := some 10000000 }).2.2.2.2.2.1
     (by decide)).2⟩

/-- Claim C2 counterexample: with an achieved system clock of 40 MHz and
a requested AHB ceiling of 8 MHz the ratio is 5, the source's bucket
selects bits `0b1001` (effective divider 4) and the achieved AHB clock is
10 MHz — it exceeds the requested ceiling, while the claimed smallest
ladder divider would have been 8 (5 MHz). -/
theorem c2_counterexample_exceeds_ceiling :
    freeze { hclk := some 8000000, pclk1 := none, pclk2 := none, sysclk := some 40000000 } =
      .ok { clocks := { hclk := 10000000, pclk1 := 10000000, pclk2 := 10000000,
                        ppre1 := 1, ppre2 := 1, sysclk := 40000000 },
            events := [Event.flashLatency 1, Event.pllmulWrite 8, Event.pllOn,
                       Event.pllWaitReady, Event.cfgrSwitch 3 3 9 2] } ∧
    specSmallestAhbDivider 40000000 8000000 = some 8 ∧
    ¬ (10000000 ≤ 8000000) := by
  refine ⟨rfl, by decide, by decide⟩

/-- Claim C2 (amended): when no AHB target was given the divider defaults
to 1 (AHB clock = sysclk); when a target was given the prescaler bits are
chosen by bucketing the integer ratio `sysclk / target` through the fixed
table (1→÷1, 2→÷2, 3–5→÷4, 6–11→÷8, 12–39→÷16, 40–95→÷32, 96–191→÷64,
192–383→÷128, ≥384→÷256), so the effective divider applied to the
returned AHB clock is `2^(bits - 7)`, drawn from the ladder
{1,2,4,8,16,32,64,128,256}; the achieved AHB clock never exceeds the
system clock, but (as the counterexample shows) it may exceed the
requested ceiling. -/
theorem c2_ahb_divider_bucket (c : CFGR) (res : FreezeResult)
    (hres : freeze c = .ok res) :
    (c.hclk = none → res.clocks.hclk = sysclkOf c) ∧
    (∀ h, c.hclk = some h →
      ∃ b, hpreBitsFor (sysclkOf c / h) = some b ∧
        res.clocks.hclk = sysclkOf c / 2 ^ (b - 7) ∧
        2 ^ (b - 7) ∈ ([1, 2, 4, 8, 16, 32, 64, 128, 256] : List Nat)) ∧
    res.clocks.hclk ≤ sysclkOf c := by
  obtain ⟨hp, p1, p2, hpeq, _, _, hclocks, _, _⟩ := freeze_ok_shape c res hres
  refine ⟨?_, ?_, ?_⟩
  · intro hnone
    rw [hnone] at hpeq
    have h7 := hpreBitsExc_ok_none hpeq
    subst h7
    rw [hclocks]
    simp
  · intro h hsome
    rw [hsome] at hpeq
    have hfor := hpreBitsExc_ok_some hpeq
    refine ⟨hp, hfor, by rw [hclocks], ?_⟩
    obtain ⟨hb1, hb2⟩ := hpreBitsFor_bounds hfor
    interval_cases hp <;> decide
  · rw [hclocks]
    exact Nat.div_le_self _ _

/-- Witness for C2 at two concrete inputs: the defaulted divider keeps
the 8 MHz system clock, and with the 40 MHz / 8 MHz counterexample input
the achieved AHB clock is bounded by the system clock. -/
theorem c2_ahb_divider_bucket_witness :
    ({ clocks := { hclk := 8000000, pclk1 := 8000000, pclk2 := 8000000,
                   ppre1 := 1, ppre2 := 1, sysclk := 8000000 },
       events := [Event.flashLatency 0, Event.cfgrSwitch 3 3 7 0] } :
        FreezeResult).clocks.hclk =
      sysclkOf { hclk := none, pclk1 := none, pclk2 := none, sysclk := none } ∧
    ({ clocks := { hclk := 10000000, pclk1 := 10000000, pclk2 := 10000000,
                   ppre1 := 1, ppre2 := 1, sysclk := 40000000 },
       events := [Event.flashLatency 1, Event.pllmulWrite 8, Event.pllOn,
                  Event.pllWaitReady, Event.cfgrSwitch 3 3 9 2] } :
        FreezeResult).clocks.hclk ≤
      sysclkOf { hclk := some 8000000, pclk1 := none, pclk2 := none,
                 sysclk := some 40000000 } :=
  ⟨(c2_ahb_divider_bucket { hclk := none, pclk1 := none, pclk2 := none, sysclk := none }
      _ rfl).1 rfl,
   (c2_ahb_divider_bucket
      { hclk := some 8000000, pclk1 := none, pclk2 := none, sysclk := some 40000000 }
      _ rfl).2.2⟩

/-- Claim C4: in every execution of `freeze` that performs writes at all
(aborted runs write nothing), the flash wait-state write — 0 if
sysclk ≤ 24 MHz, 1 if ≤ 48 MHz, else 2 — is the first hardware write,
hence it precedes any clock-source switch in both branches; and when a
non-bypass PLL multiplier was selected, the multiplier write, the
PLL-enable write and the PLL-ready poll all occur strictly before the
single register write that programs the three prescaler fields and
switches the system-clock-source selector to PLL (SW = 0b10). -/
theorem c4_flash_before_switch_pll_before_commit (c : CFGR) (res : FreezeResult)
    (hres : freeze c = .ok res) :
    ∃ lat p2 p1 hp,
      lat = (if sysclkOf c ≤ 24000000 then 0
             else if sysclkOf c ≤ 48000000 then 1 else 2) ∧
      ((pllmulBitsOf c = none ∧
          res.events = [Event.flashLatency lat, Event.cfgrSwitch p2 p1 hp 0]) ∨
        (∃ b, pllmulBitsOf c = some b ∧
          res.events = [Event.flashLatency lat, Event.pllmulWrite b, Event.pllOn,
                        Event.pllWaitReady, Event.cfgrSwitch p2 p1 hp 2])) := by
  obtain ⟨hp, p1, p2, _, _, _, _, _, hev⟩ := freeze_ok_shape c res hres
  refine ⟨_, p2, p1, hp, rfl, ?_⟩
  cases hbits : pllmulBitsOf c with
  | none =>
    rw [hbits] at hev
    exact Or.inl ⟨rfl, hev⟩
  | some b =>
    rw [hbits] at hev
    exact Or.inr ⟨b, rfl, hev⟩

/-- Witness for C4 at a 16 MHz request: the PLL branch is taken and the
events are flash write, multiplier write, PLL on, ready poll, then the
single prescaler-and-switch write. -/
theorem c4_flash_before_switch_pll_before_commit_witness :
    ∃ lat p2 p1 hp,
      lat = (if sysclkOf { hclk := none, pclk1 := none, pclk2 := none,
                           sysclk := some 16000000 } ≤ 24000000 then 0
             else if sysclkOf { hclk := none, pclk1 := none, pclk2 := none,
                                sysclk := some 16000000 } ≤ 48000000 then 1 else 2) ∧
      ((pllmulBitsOf { hclk := none, pclk1 := none, pclk2 := none,
                       sysclk := some 16000000 } = none ∧
          ({ clocks := { hclk := 16000000, pclk1 := 16000000, pclk2 := 16000000,
                         ppre1 := 1, ppre2 := 1, sysclk := 16000000 },
             events := [Event.flashLatency 0, Event.pllmulWrite 2, Event.pllOn,
                        Event.pllWaitReady, Event.cfgrSwitch 3 3 7 2] } :
              FreezeResult).events =
            [Event.flashLatency lat, Event.cfgrSwitch p2 p1 hp 0]) ∨
        (∃ b, pllmulBitsOf { hclk := none, pclk1 := none, pclk2 := none,
                             sysclk := some 16000000 } = some b ∧
          ({ clocks := { hclk := 16000000, pclk1 := 16000000, pclk2 := 16000000,
                         ppre1 := 1, ppre2 := 1, sysclk := 16000000 },
             events := [Event.flashLatency 0, Event.pllmulWrite 2, Event.pllOn,
                        Event.pllWaitReady, Event.cfgrSwitch 3 3 7 2] } :
              FreezeResult).events =
            [Event.flashLatency lat, Event.pllmulWrite b, Event.pllOn,
             Event.pllWaitReady, Event.cfgrSwitch p2 p1 hp 2])) :=
  c4_flash_before_switch_pll_before_commit
    { hclk := none, pclk1 := none, pclk2 := none, sysclk := some 16000000 } _ rfl

end Stm32Rcc

namespace Stm32Gpio

/-- Bits at or above position 32 of a 32-bit register value are clear. -/
theorem testBit_high_false {r k : Nat} (hr : r < 2 ^ 32) (hk : 32 ≤ k) :
    r.testBit k = false :=
  Nat.testBit_lt_two_pow (lt_of_lt_of_le hr (Nat.pow_le_pow_right (by norm_num) hk))

/-- Masking a 32-bit register with the 32-bit complement of a mask clears
exactly the mask's bits. -/
theorem and_compl_testBit (r m k : Nat) (hr : r < 2 ^ 32) :
    (r &&& compl32 m).testBit k = (r.testBit k && !(m.testBit k)) := by
  unfold compl32
  rw [Nat.testBit_and, Nat.testBit_xor, Nat.testBit_two_pow_sub_one]
  rcases lt_or_ge k 32 with hk | hk
  · simp [hk]
  · simp [testBit_high_false hr hk]

/-- Read-modify-write `(r & !mask) | v` at the bit level. -/
theorem rmw_testBit (r m v k : Nat) (hr : r < 2 ^ 32) :
    ((r &&& compl32 m) ||| v).testBit k =
      ((r.testBit k && !(m.testBit k)) || v.testBit k) := by
  rw [Nat.testBit_or, and_compl_testBit r m k hr]

/-- A value shifted left past position `k` has bit `k` clear. -/
theorem shiftLeft_testBit_low {v s k : Nat} (hk : k < s) :
    (v <<< s).testBit k = false := by
  have h : ¬ k ≥ s := by omega
  simp [Nat.testBit_shiftLeft, h]

/-- A `w`-bit value shifted left by `s` has every bit at or above
`s + w` clear. -/
theorem shiftLeft_testBit_hi {v s k w : Nat} (hv : v < 2 ^ w) (hk : s + w ≤ k) :
    (v <<< s).testBit k = false := by
  have hvb : v.testBit (k - s) = false :=
    Nat.testBit_lt_two_pow
      (lt_of_lt_of_le hv (Nat.pow_le_pow_right (by norm_num) (by omega)))
  simp [Nat.testBit_shiftLeft, hvb]

/-- Bits of a shifted value inside the shifted window. -/
theorem shiftLeft_testBit_mid {v s k : Nat} (hk : s ≤ k) :
    (v <<< s).testBit k = v.testBit (k - s) := by
  simp [Nat.testBit_shiftLeft, hk]

/-- Writing a `w`-bit field: inside the field the result holds the new
value's bits. -/
theorem setField_testBit_in {r off v w : Nat} (k : Nat) (hr : r < 2 ^ 32)
    (hk : k < w) :
    ((r &&& compl32 ((2 ^ w - 1) <<< off)) ||| (v <<< off)).testBit (off + k) =
      v.testBit k := by
  rw [rmw_testBit _ _ _ _ hr, shiftLeft_testBit_mid (by omega),
    shiftLeft_testBit_mid (by omega)]
  simp [Nat.add_sub_cancel_left, hk]

/-- Writing a `w`-bit field: outside the field every bit of the register
is unchanged. -/
theorem setField_testBit_out {r off v w : Nat} (k : Nat) (hr : r < 2 ^ 32)
    (hv : v < 2 ^ w) (hk : k < off ∨ off + w ≤ k) :
    ((r &&& compl32 ((2 ^ w - 1) <<< off)) ||| (v <<< off)).testBit k =
      r.testBit k := by
  have hm : (2 ^ w - 1 : Nat) < 2 ^ w := Nat.sub_lt (pow_pos (by norm_num) w) (by norm_num)
  rw [rmw_testBit _ _ _ _ hr]
  rcases hk with h | h
  · rw [shiftLeft_testBit_low h, shiftLeft_testBit_low h]
    simp
  · rw [shiftLeft_testBit_hi hm h, shiftLeft_testBit_hi hv h]
    simp

/-- Clearing a `w`-bit field: inside the field the result is zero. -/
theorem clearField_testBit_in {r off w : Nat} (k : Nat) (hr : r < 2 ^ 32)
    (hk : k < w) :
    (r &&& compl32 ((2 ^ w - 1) <<< off)).testBit (off + k) = false := by
  rw [and_compl_testBit _ _ _ hr, shiftLeft_testBit_mid (by omega)]
  simp [Nat.add_sub_cancel_left, hk]

/-- Clearing a `w`-bit field: outside the field every bit of the register
is unchanged. -/
theorem clearField_testBit_out {r off w : Nat} (k : Nat) (hr : r < 2 ^ 32)
    (hk : k < off ∨ off + w ≤ k) :
    (r &&& compl32 ((2 ^ w - 1) <<< off)).testBit k = r.testBit k := by
  have hm : (2 ^ w - 1 : Nat) < 2 ^ w := Nat.sub_lt (pow_pos (by norm_num) w) (by norm_num)
  rw [and_compl_testBit _ _ _ hr]
  rcases hk with h | h
  · rw [shiftLeft_testBit_low h]
    simp
  · rw [shiftLeft_testBit_hi hm h]
    simp

/-- Masking with a complement keeps the register inside 32 bits. -/
theorem clearField_lt {r m : Nat} (hr : r < 2 ^ 32) : r &&& compl32 m < 2 ^ 32 :=
  lt_of_le_of_lt Nat.and_le_left hr

/-- A `w`-bit value shifted by `s` stays inside 32 bits when
`s + w ≤ 32`. -/
theorem shiftLeft_lt {v s w : Nat} (hv : v < 2 ^ w) (h : s + w ≤ 32) :
    v <<< s < 2 ^ 32 := by
  rw [Nat.shiftLeft_eq]
  calc v * 2 ^ s < 2 ^ w * 2 ^ s :=
        Nat.mul_lt_mul_of_lt_of_le hv (le_refl _) (pow_pos (by norm_num) s)
    _ = 2 ^ (w + s) := (pow_add 2 w s).symm
    _ ≤ 2 ^ 32 := Nat.pow_le_pow_right (by norm_num) (by omega)

/-- A read-modify-write stays inside 32 bits. -/
theorem setField_lt {r m x : Nat} (hr : r < 2 ^ 32) (hx : x < 2 ^ 32) :
    (r &&& compl32 m) ||| x < 2 ^ 32 :=
  Nat.or_lt_two_pow (clearField_lt hr) hx

/-- A 2-bit field value is below 4. -/
theorem fld2_lt (r i : Nat) : fld2 r i < 4 :=
  lt_of_le_of_lt Nat.and_le_right (by norm_num)

/-- Determining a field from its bits: if positions `off..off+w` of `r`
agree with a `w`-bit value `v`, the extracted field equals `v`. -/
theorem field_eq_of_testBit {w r off v : Nat} (hv : v < 2 ^ w)
    (h : ∀ k, k < w → r.testBit (off + k) = v.testBit k) :
    (r >>> off) &&& (2 ^ w - 1) = v := by
  apply Nat.eq_of_testBit_eq
  intro k
  rw [Nat.testBit_and, Nat.testBit_shiftRight, Nat.testBit_two_pow_sub_one]
  by_cases hk : k < w
  · simp [hk, h k hk]
  · have hvk : v.testBit k = false :=
      Nat.testBit_lt_two_pow
        (lt_of_lt_of_le hv (Nat.pow_le_pow_right (by norm_num) (by omega)))
    simp [hk, hvk]

/-- `fld2` in the `2^w - 1` mask form. -/
theorem fld2_def_mask (r i : Nat) : fld2 r i = (r >>> (2 * i)) &&& (2 ^ 2 - 1) := by
  norm_num [fld2]

/-- `fld4` in the `2^w - 1` mask form. -/
theorem fld4_def_mask (r n : Nat) : fld4 r n = (r >>> (4 * n)) &&& (2 ^ 4 - 1) := by
  norm_num [fld4]

/-- Determining a 2-bit mode/pull field from its two bits. -/
theorem fld2_eq {r i v : Nat} (hv : v < 4)
    (h : ∀ k, k < 2 → r.testBit (2 * i + k) = v.testBit k) : fld2 r i = v := by
  rw [fld2_def_mask]
  exact field_eq_of_testBit (by simpa using hv) h

/-- Determining a 4-bit alternate-function nibble from its four bits. -/
theorem fld4_eq {r n v : Nat} (hv : v < 16)
    (h : ∀ k, k < 4 → r.testBit (4 * n + k) = v.testBit k) : fld4 r n = v := by
  rw [fld4_def_mask]
  exact field_eq_of_testBit (by simpa using hv) h

/-- The low bits of an extracted 2-bit field are the register's bits. -/
theorem fld2_testBit_low {r i k : Nat} (hk : k < 2) :
    (fld2 r i).testBit k = r.testBit (2 * i + k) := by
  unfold fld2
  rw [Nat.testBit_and, Nat.testBit_shiftRight]
  have h3 : (3 : Nat).testBit k = true := by interval_cases k <;> decide
  simp [h3]

end Stm32Gpio

namespace Stm32Gpio

/-- Claim C8: for every pin index, transitioning a pin
Input(Floating) → Output(PushPull) → Input(Floating) leaves the 2-bit
mode-register field for that pin's index at its original encoded value 00
(the field is 01 after the push-pull step and 00 again after the
floating-input step, equal to the original floating-input encoding), and
leaves the mode-register fields of every other pin in the shared register
unchanged throughout — after the first transition and after the second. -/
theorem c8_mode_round_trip (i moder otyper pupdr : Nat) (hi : i < 16)
    (hm : moder < 2 ^ 32) (h0 : fld2 moder i = 0) :
    fld2 (as_push_pull_output i moder otyper).1 i = 1 ∧
    fld2 (as_floating_input i (as_push_pull_output i moder otyper).1 pupdr).1 i = 0 ∧
    fld2 (as_floating_input i (as_push_pull_output i moder otyper).1 pupdr).1 i =
      fld2 moder i ∧
    (∀ j, j ≠ i → fld2 (as_push_pull_output i moder otyper).1 j = fld2 moder j) ∧
    (∀ j, j ≠ i →
      fld2 (as_floating_input i (as_push_pull_output i moder otyper).1 pupdr).1 j =
        fld2 moder j) := by
  have hm1 : (as_push_pull_output i moder otyper).1 =
      (moder &&& compl32 ((2 ^ 2 - 1) <<< (2 * i))) ||| (1 <<< (2 * i)) := by
    show (moder &&& compl32 (3 <<< (2 * i))) ||| (1 <<< (2 * i)) = _
    norm_num
  have hm1lt : (as_push_pull_output i moder otyper).1 < 2 ^ 32 := by
    rw [hm1]
    exact setField_lt hm (shiftLeft_lt (by norm_num : (1 : Nat) < 2 ^ 2) (by omega))
  have hm2 : (as_floating_input i (as_push_pull_output i moder otyper).1 pupdr).1 =
      (as_push_pull_output i moder otyper).1 &&& compl32 ((2 ^ 2 - 1) <<< (2 * i)) := by
    show (as_push_pull_output i moder otyper).1 &&& compl32 (3 <<< (2 * i)) = _
    norm_num
  have hb1in : ∀ k, k < 2 →
      ((as_push_pull_output i moder otyper).1).testBit (2 * i + k) =
        (1 : Nat).testBit k := by
    intro k hk
    rw [hm1]
    exact setField_testBit_in k hm hk
  have hb1out : ∀ k, k < 2 * i ∨ 2 * i + 2 ≤ k →
      ((as_push_pull_output i moder otyper).1).testBit k = moder.testBit k := by
    intro k hk
    rw [hm1]
    exact setField_testBit_out k hm (by norm_num) hk
  have hb2in : ∀ k, k < 2 →
      ((as_floating_input i (as_push_pull_output i moder otyper).1 pupdr).1).testBit
        (2 * i + k) = false := by
    intro k hk
    rw [hm2]
    exact clearField_testBit_in k hm1lt hk
  have hb2out : ∀ k, k < 2 * i ∨ 2 * i + 2 ≤ k →
      ((as_floating_input i (as_push_pull_output i moder otyper).1 pupdr).1).testBit k =
        moder.testBit k := by
    intro k hk
    rw [hm2, clearField_testBit_out k hm1lt hk]
    exact hb1out k hk
  have hf2 : fld2 (as_floating_input i (as_push_pull_output i moder otyper).1 pupdr).1 i =
      0 := by
    apply fld2_eq (by norm_num)
    intro k hk
    rw [hb2in k hk]
    simp
  refine ⟨?_, hf2, hf2.trans h0.symm, ?_, ?_⟩
  · apply fld2_eq (by norm_num)
    intro k hk
    exact hb1in k hk
  · intro j hj
    apply fld2_eq (fld2_lt moder j)
    intro k hk
    rw [fld2_testBit_low hk]
    exact hb1out (2 * j + k) (by omega)
  · intro j hj
    apply fld2_eq (fld2_lt moder j)
    intro k hk
    rw [fld2_testBit_low hk]
    exact hb2out (2 * j + k) (by omega)

/-- Witness for C8 at pin 5 with an all-ones mode register whose field 5
was first cleared: concrete round trip restores the 00 field and keeps
field 7 untouched. -/
theorem c8_mode_round_trip_witness :
    fld2 (as_floating_input 5 (as_push_pull_output 5 0xFFFFF3FF 0).1 0).1 5 = 0 ∧
    fld2 (as_push_pull_output 5 0xFFFFF3FF 0).1 7 = fld2 0xFFFFF3FF 7 :=
  ⟨(c8_mode_round_trip 5 0xFFFFF3FF 0 0 (by decide) (by decide) (by decide)).2.1,
   (c8_mode_round_trip 5 0xFFFFF3FF 0 0 (by decide) (by decide) (by decide)).2.2.2.1 7
     (by decide)⟩

/-- Claim C9: `as_af7` on a pin of index 10 writes `0b10` into bits
[21:20] of the mode register and `0b0111` into bits [11:8] of the high
alternate-function register (nibble 2, since 10 % 8 = 2), and leaves
every other bit of both registers unchanged — both writes are
read-modify-writes of only that pin's field. -/
theorem c9_af7_pin10 (moder afrh : Nat) (hm : moder < 2 ^ 32) (ha : afrh < 2 ^ 32) :
    fld2 (as_af7 10 moder afrh).1 10 = 2 ∧
    fld4 (as_af7 10 moder afrh).2 2 = 7 ∧
    (∀ k, k ≠ 20 → k ≠ 21 → ((as_af7 10 moder afrh).1).testBit k = moder.testBit k) ∧
    (∀ k, k < 8 ∨ 12 ≤ k → ((as_af7 10 moder afrh).2).testBit k = afrh.testBit k) := by
  have e1 : (as_af7 10 moder afrh).1 =
      (moder &&& compl32 ((2 ^ 2 - 1) <<< 20)) ||| (2 <<< 20) := by
    show (moder &&& compl32 (3 <<< 20)) ||| (2 <<< 20) = _
    norm_num
  have e2 : (as_af7 10 moder afrh).2 =
      (afrh &&& compl32 ((2 ^ 4 - 1) <<< 8)) ||| (7 <<< 8) := by
    show (afrh &&& compl32 (15 <<< 8)) ||| (7 <<< 8) = _
    norm_num
  refine ⟨?_, ?_, ?_, ?_⟩
  · apply fld2_eq (by norm_num)
    intro k hk
    have h20 : 2 * 10 + k = 20 + k := by norm_num
    rw [e1, h20]
    exact setField_testBit_in k hm hk
  · apply fld4_eq (by norm_num)
    intro k hk
    have h8 : 4 * 2 + k = 8 + k := by norm_num
    rw [e2, h8]
    exact setField_testBit_in k ha hk
  · intro k h20 h21
    rw [e1]
    exact setField_testBit_out k hm (by norm_num) (by omega)
  · intro k hk
    rw [e2]
    exact setField_testBit_out k ha (by norm_num) (by omega)

/-- Witness for C9 at concrete register contents. -/
theorem c9_af7_pin10_witness :
    fld2 (as_af7 10 0x12345678 0x9ABCDEF0).1 10 = 2 ∧
    fld4 (as_af7 10 0x12345678 0x9ABCDEF0).2 2 = 7 ∧
    ((as_af7 10 0x12345678 0x9ABCDEF0).1).testBit 0 = (0x12345678 : Nat).testBit 0 ∧
    ((as_af7 10 0x12345678 0x9ABCDEF0).2).testBit 31 = (0x9ABCDEF0 : Nat).testBit 31 :=
  ⟨(c9_af7_pin10 0x12345678 0x9ABCDEF0 (by decide) (by decide)).1,
   (c9_af7_pin10 0x12345678 0x9ABCDEF0 (by decide) (by decide)).2.1,
   (c9_af7_pin10 0x12345678 0x9ABCDEF0 (by decide) (by decide)).2.2.1 0 (by decide)
     (by decide),
   (c9_af7_pin10 0x12345678 0x9ABCDEF0 (by decide) (by decide)).2.2.2 31
     (Or.inr (by decide))⟩

/-- Claim C10: for every output-mode pin, `downgrade` preserves
behaviour — the erased pin's operations, using the stored runtime index,
perform exactly the same register accesses as the typed pin's: `is_low`
reads the output-data register masked with bit `i` and compares with
zero, `set_high` writes bit `i` of the set/reset register, `set_low`
writes bit `16 + i`, and `is_high` is the negation of `is_low` on both
sides. -/
theorem c10_downgrade_preserves_output_ops (i odr : Nat) :
    PXx.is_low (PXi.downgrade i) odr = PXi.is_low i odr ∧
    PXx.is_high (PXi.downgrade i) odr = !(PXx.is_low (PXi.downgrade i) odr) ∧
    PXi.is_high i odr = !(PXi.is_low i odr) ∧
    PXx.set_high (PXi.downgrade i) = PXi.set_high i ∧
    PXx.set_low (PXi.downgrade i) = PXi.set_low i :=
  ⟨rfl, rfl, rfl, rfl, rfl⟩

end Stm32Gpio
